import Mathlib

/-!
Shallow embedding of the `pipeline` Go package (ca0s/pipeline).

Conventions used throughout:
* `time.Now()` is modelled by an explicit `now : Nat` argument.
* Go's `context.Context` value bag is modelled by the record `Ctx`, with one
  `Option` field per context key actually used by the package
  (`TracesFlag`, `PipeLineLogLevel`, `PipelineStatDB`); a `none` field models
  the absence of the key, matching `ctx.Value(...) == nil`.
* The `StatDB` map `map[Processor[E]]*Stats` is keyed by processor identity;
  identities are represented by the processor's name string.
* Mutation of a struct through a pointer is modelled by returning the updated
  value.
-/

namespace Pipeline

/-- Items flowing through the pipeline.  The engine never inspects the
payload; the only capability it uses is `Traceable.AddTrace`, so an item is
modelled as an opaque integer payload together with its trace history. -/
structure Item where
  value : Int
  trace : List String
deriving DecidableEq, Repr

/-- `AddTrace` of the `Traceable` interface (traces.go): append a stage name
to the item's trace history. -/
def Item.AddTrace (it : Item) (name : String) : Item :=
  { it with trace := it.trace ++ [name] }

/-- `Stats` (stats.go lines 26-41): per-processor counters and timestamps.
`atomic.Int64` counters are modelled as `Int`; `time.Time` zero values as
`none`. -/
structure Stats where
  Input : Int
  Output : Int
  Passthrough : Int
  Failed : Int
  LastInput : Option Nat
  LastOutput : Option Nat
  LastPassthrough : Option Nat
  LastFailure : Option Nat
  Started : Option Nat
  Finished : Option Nat
  Name : String
deriving DecidableEq, Repr

/-- `NewStats` (stats.go): all counters and timestamps zero, name set. -/
def NewStats (name : String) : Stats :=
  ⟨0, 0, 0, 0, none, none, none, none, none, none, name⟩

/-- `Stats.TrackOutput` (stats.go lines 161-164): set `LastOutput` to now and
increment `Output`. -/
def Stats.TrackOutput (s : Stats) (now : Nat) : Stats :=
  { s with LastOutput := some now, Output := s.Output + 1 }

/-- `Stats.TrackPassthrough` (stats.go lines 166-169): set `LastPassthrough`
to now and increment `Passthrough`. -/
def Stats.TrackPassthrough (s : Stats) (now : Nat) : Stats :=
  { s with LastPassthrough := some now, Passthrough := s.Passthrough + 1 }

/-- `Stats.TrackInput` (stats.go lines 171-174). -/
def Stats.TrackInput (s : Stats) (now : Nat) : Stats :=
  { s with LastInput := some now, Input := s.Input + 1 }

/-- `Stats.TrackStarted` (stats.go lines 153-155). -/
def Stats.TrackStarted (s : Stats) (now : Nat) : Stats :=
  { s with Started := some now }

/-- `Stats.TrackFinished` (stats.go lines 157-159). -/
def Stats.TrackFinished (s : Stats) (now : Nat) : Stats :=
  { s with Finished := some now }

/-- The `StatDB` item map (stats.go lines 15-18), keyed by processor
identity (represented by name). -/
def StatDB := List (String × Stats)

instance : DecidableEq StatDB := by
  unfold StatDB
  infer_instance

/-- Association-list lookup for the stat map. -/
def StatDB.find : StatDB → String → Option Stats
  | [], _ => none
  | (k, v) :: rest, p => if k = p then some v else StatDB.find rest p

/-- Association-list insert/replace for the stat map. -/
def StatDB.store : StatDB → String → Stats → StatDB
  | [], p, s => [(p, s)]
  | (k, v) :: rest, p, s =>
      if k = p then (k, s) :: rest else (k, v) :: StatDB.store rest p s

/-- `StatDB.getStats` (stats.go lines 115-126): return the stats entry for
the processor, inserting a fresh `NewStats` if absent.  (The map-insertion
side effect is folded into the update functions below, which re-store the
tracked value, giving the same net map contents.) -/
def StatDB.getStats (db : StatDB) (p : String) : Stats :=
  (db.find p).getD (NewStats p)

/-- `StatDB.trackOutput` (stats.go lines 143-146): `getStats` then
`Stats.TrackOutput` on the (pointed-to) entry. -/
def StatDB.trackOutput (db : StatDB) (p : String) (now : Nat) : StatDB :=
  db.store p ((db.getStats p).TrackOutput now)

/-- `StatDB.trackPassthrough` (stats.go lines 148-151). -/
def StatDB.trackPassthrough (db : StatDB) (p : String) (now : Nat) : StatDB :=
  db.store p ((db.getStats p).TrackPassthrough now)

/-- `StatDB.trackInput` (stats.go lines 138-141). -/
def StatDB.trackInput (db : StatDB) (p : String) (now : Nat) : StatDB :=
  db.store p ((db.getStats p).TrackInput now)

/-- `StatDB.trackStarted` (stats.go lines 128-131). -/
def StatDB.trackStarted (db : StatDB) (p : String) (now : Nat) : StatDB :=
  db.store p ((db.getStats p).TrackStarted now)

/-- `StatDB.trackFinished` (stats.go lines 133-136). -/
def StatDB.trackFinished (db : StatDB) (p : String) (now : Nat) : StatDB :=
  db.store p ((db.getStats p).TrackFinished now)

/-- The Go `context.Context` value bag restricted to the three keys this
package reads: `TracesFlag` (traces.go), `PipeLineLogLevel` (graph.go) and
`PipelineStatDB` (stats.go).  A `none` field models an absent key. -/
structure Ctx where
  tracesFlag : Option Bool
  logLevel : Option Int
  statDB : Option StatDB
deriving DecidableEq

/-- A context with none of the pipeline keys set (e.g. `context.Background()`). -/
def Ctx.background : Ctx := ⟨none, none, none⟩

/-- `WithTraces` (traces.go lines 9-11): store `true` under `TracesFlag`. -/
def WithTraces (ctx : Ctx) : Ctx := { ctx with tracesFlag := some true }

/-- `HasTracesEnabled` (traces.go lines 13-15): `ctx.Value(TracesFlag) == true`:
true exactly when the key holds the boolean `true`. -/
def HasTracesEnabled (ctx : Ctx) : Bool := ctx.tracesFlag = some true

/-- `WithStats` (stats.go lines 62-64). -/
def WithStats (ctx : Ctx) (db : StatDB) : Ctx := { ctx with statDB := some db }

/-- `TrackStarted` (stats.go lines 66-73): no registered store means return
without doing anything. -/
def TrackStarted (ctx : Ctx) (now : Nat) (procName : String) : Ctx :=
  match ctx.statDB with
  | none => ctx
  | some db => { ctx with statDB := some (db.trackStarted procName now) }

/-- `TrackFinished` (stats.go lines 75-82). -/
def TrackFinished (ctx : Ctx) (now : Nat) (procName : String) : Ctx :=
  match ctx.statDB with
  | none => ctx
  | some db => { ctx with statDB := some (db.trackFinished procName now) }

/-- `TrackInput` (stats.go lines 84-91). -/
def TrackInput (ctx : Ctx) (now : Nat) (procName : String) : Ctx :=
  match ctx.statDB with
  | none => ctx
  | some db => { ctx with statDB := some (db.trackInput procName now) }

/-- `TrackOutput` (stats.go lines 93-104): first, when tracing is enabled,
`obj.AddTrace(processor.Name())`; then, when a store is registered,
`statDB.trackOutput(processor)`.  Returns the updated context (store) and
the possibly trace-annotated item. -/
def TrackOutput (ctx : Ctx) (now : Nat) (procName : String) (obj : Item) :
    Ctx × Item :=
  let obj := if HasTracesEnabled ctx then obj.AddTrace procName else obj
  match ctx.statDB with
  | none => (ctx, obj)
  | some db => ({ ctx with statDB := some (db.trackOutput procName now) }, obj)

/-- `TrackPassthrough` (stats.go lines 106-113).  Faithful to the source:
the body never calls `AddTrace`, and it calls `statDB.trackOutput` — not
`statDB.trackPassthrough` — on the registered store. -/
def TrackPassthrough (ctx : Ctx) (now : Nat) (procName : String) (obj : Item) :
    Ctx × Item :=
  match ctx.statDB with
  | none => (ctx, obj)
  | some db => ({ ctx with statDB := some (db.trackOutput procName now) }, obj)

/-- `const PipelineLogLevelDisabled = 0` (graph.go line 155). -/
def PipelineLogLevelDisabled : Int := 0

/-- `const PipelineLogLevelDebug = iota` (graph.go line 156).  This is its
own one-line `const` declaration, and Go resets `iota` to 0 at the start of
every `const` declaration, so the constant's value is 0. -/
def PipelineLogLevelDebug : Int := 0

/-- `WithLogLevel` (graph.go lines 158-160). -/
def WithLogLevel (ctx : Ctx) (level : Int) : Ctx :=
  { ctx with logLevel := some level }

/-- `Log` (graph.go lines 162-166): emit (via `log.Printf`) exactly when
`ctx.Value(PipeLineLogLevel) == PipelineLogLevelDebug`; an absent key (`nil`)
never compares equal to the int constant.  The emitted line, if any, is
returned as `some` of the formatted message. -/
def Log (ctx : Ctx) (procName : String) (msg : String) : Option String :=
  if ctx.logLevel = some PipelineLogLevelDebug then
    some ("[" ++ procName ++ "] " ++ msg)
  else
    none

/-!
## Composite execution semantics

The three composites (`Fanout`, `Sequential`, `Parallel`, stats.go
lines 260-442 of the concatenated source) wire Go channels between child
processors.  Channel concurrency is modelled at the stream level:

* A channel carries a FIFO sequence of items; the sequence a reader drains
  from a channel is exactly the sequence its writer(s) sent.
* When several concurrent forwarding goroutines drain separate channels into
  one shared channel (the fanout collector, the parallel output), the shared
  channel carries some *interleaving* of the source sequences: the relative
  order within each source is preserved and the cross-source order is
  scheduler-chosen (`Merge` below).
* Symmetrically, when several concurrent readers race on one shared channel
  (the parallel children on the pipeline input), the sequences they receive
  form a scheduler-chosen partition of the input into subsequences, i.e. the
  input is an interleaving of the received sequences.
* A child processor satisfying the Processor contract is modelled as a
  function `List Item → List Item` from its drained input sequence to its
  emitted output sequence (a deterministic, terminating leaf).

Execution results are recorded as an `ExecInfo`: `output = some out` means
the `Execute` call returned after closing the pipeline output, having
forwarded `out`; `output = none` means the call panicked and the output
channel was never closed.  `inputRead` counts items received from the
pipeline input channel and `tasks` counts goroutines spawned. -/

/-- A leaf processor's observable behaviour under the Processor contract:
the output sequence it emits for the input sequence it drains. -/
def ChildFn : Type := List Item → List Item

/-- The pass-through processor: forwards every item unchanged. -/
def passThrough : ChildFn := fun l => l

/-- A leaf that adds 1 to every item's payload. -/
def addOne : ChildFn := fun l => l.map (fun it => { it with value := it.value + 1 })

/-- `Merge chans out`: `out` is an interleaving of the sequences `chans` —
each step removes the head of one source sequence; within each source the
order is preserved.  This is the set of sequences a shared channel can carry
when one forwarding goroutine per source drains the sources into it, and,
read backwards, the set of ways racing readers can split a shared sequence. -/
inductive Merge : List (List Item) → List Item → Prop where
  | nil {chans} : (∀ l ∈ chans, l = []) → Merge chans []
  | cons {chans} {i : Nat} {x : Item} {rest : List Item} {out : List Item} :
      chans.get? i = some (x :: rest) →
      Merge (chans.set i rest) out →
      Merge chans (x :: out)

/-- Result of one `Execute` call.  `output = none` models a panic (the
output channel is never closed and the call never returns normally). -/
structure ExecInfo where
  output : Option (List Item)
  inputRead : Nat
  tasks : Nat
deriving DecidableEq, Repr

/-- The `Fanout` struct (stats.go lines 215-221).  `procInChans` and
`procOutChans` are overwritten with freshly `make`d slices at the start of
every `Execute` call (lines 272-273), so they carry no observable state and
are omitted. -/
structure Fanout where
  ChainName : String
  Processors : List ChildFn

/-- The `Sequential` struct (stats.go lines 235-240).  `procOutChans` is
overwritten with a fresh slice at the start of every `Execute` call
(line 350) and is omitted for the same reason. -/
structure Sequential where
  ChainName : String
  Processors : List ChildFn

/-- The `Parallel` struct (stats.go lines 253-258).  Unlike the other two
composites, `Execute` never allocates `procChans`: it only *indexes* into it
(line 420), so the field's pre-call length is observable and is kept.  The
field is unexported and no code in the package ever assigns it, so every
`Parallel` value a client or `SerializedPipeline.Pipeline` can build has
`procChans = []` (Go `nil`). -/
structure Parallel where
  ChainName : String
  Processors : List ChildFn
  procChans : List Unit

/-- `Fanout.Name` (stats.go lines 334-336). -/
def Fanout.Name (f : Fanout) : String := "Fanout/" ++ f.ChainName

/-- `Sequential.Name` (stats.go lines 403-405). -/
def Sequential.Name (s : Sequential) : String := "Sequential/" ++ s.ChainName

/-- `Parallel.Name` (stats.go lines 444-446). -/
def Parallel.Name (p : Parallel) : String := "Parallel/" ++ p.ChainName

/-- `Fanout.Execute` (stats.go lines 260-332), dataflow view for a context
without tracing.  With no children: close output, return — no goroutine
spawned, no input received (`empty`).  Otherwise the call spawns one
collector-drain goroutine, one executor and one merger per child, and one
dispatcher (`2 + 2n` tasks).  The dispatcher forwards every input item to
every child's input channel, so child `i` drains exactly `input` and emits
`cᵢ input`; the per-child mergers interleave these emissions into the
collector, which the drain goroutine copies in order to the output. -/
inductive Fanout.Run (f : Fanout) (input : List Item) : ExecInfo → Prop where
  | empty : f.Processors = [] → Fanout.Run f input ⟨some [], 0, 0⟩
  | run {out : List Item} :
      f.Processors ≠ [] →
      Merge (f.Processors.map (fun c => c input)) out →
      Fanout.Run f input ⟨some out, input.length, 2 + 2 * f.Processors.length⟩

/-- Composition of the sequential chain: child 0 drains the entry copy of
the input, child `i+1` drains child `i`'s emissions (stats.go lines 354-374:
`procInput = chain.procOutChans[procIndex-1]`). -/
def seqChain (children : List ChildFn) (input : List Item) : List Item :=
  children.foldl (fun acc c => c acc) input

/-- `Sequential.Execute` (stats.go lines 338-401), dataflow view for a
context without tracing.  No children: close output, return (`empty`).
Otherwise: one executor goroutine per child, plus the feeder and the drain
(`n + 2` tasks); the feeder copies the whole input into the entry channel
and the drain copies the last child's output to the pipeline output in
order, so the unique output is the fold of the children over the input. -/
inductive Sequential.Run (s : Sequential) (input : List Item) : ExecInfo → Prop where
  | empty : s.Processors = [] → Sequential.Run s input ⟨some [], 0, 0⟩
  | run :
      s.Processors ≠ [] →
      Sequential.Run s input
        ⟨some (seqChain s.Processors input), input.length, s.Processors.length + 2⟩

/-- `Parallel.Execute` (stats.go lines 407-442), dataflow view for a context
without tracing.  No children: close output, return (`empty`).  With
children, the very first loop iteration executes
`chain.procChans[procIndex] = procOutput` (line 420); on the `procChans`
slice left `nil` by every constructor in the package this is an
index-out-of-range panic raised before any goroutine is spawned and before
any input item is received, and the output channel is never closed
(`panicked`).  Had `procChans` been long enough (unreachable in this
package), the children would race on the shared input — a scheduler-chosen
split of `input` into one drained subsequence per child — and the per-child
forwarding goroutines would interleave the children's emissions into the
output (`run`). -/
inductive Parallel.Run (p : Parallel) (input : List Item) : ExecInfo → Prop where
  | empty : p.Processors = [] → Parallel.Run p input ⟨some [], 0, 0⟩
  | panicked :
      p.Processors ≠ [] →
      p.procChans = [] →
      Parallel.Run p input ⟨none, 0, 0⟩
  | run {parts : List (List Item)} {out : List Item} :
      p.Processors ≠ [] →
      p.Processors.length ≤ p.procChans.length →
      parts.length = p.Processors.length →
      Merge parts input →
      Merge (List.zipWith (fun c l => c l) p.Processors parts) out →
      Parallel.Run p input ⟨some out, input.length, 2 * p.Processors.length⟩

/-- Capacity of each fanout child's input channel:
`procInput := make(chan E, 200)` (stats.go line 287). -/
def fanoutChildInputCap : Nat := 200

/-- Capacity of each fanout child's output channel:
`procOutput := make(chan E, 200)` (stats.go line 288). -/
def fanoutChildOutputCap : Nat := 200

/-- The fanout dispatcher's send trace (stats.go lines 309-316): for each
input item in arrival order (`for msg := range input`), one send per child,
in child-index order (`for _, procInput := range fanout.procInChans`).
Entries are (child index, item) pairs in the order the sends are issued. -/
def fanoutDispatch (n : Nat) : List Item → List (Nat × Item)
  | [] => []
  | m :: rest => (List.range n).map (fun i => (i, m)) ++ fanoutDispatch n rest

/-- The sequence of items the dispatcher sends to child `i`'s input channel:
the subsequence of the dispatch trace addressed to `i`. -/
def fanoutDeliveredTo (n : Nat) (input : List Item) (i : Nat) : List Item :=
  ((fanoutDispatch n input).filter (fun e => e.1 = i)).map (fun e => e.2)

/-- A Go buffered channel, as far as send-blocking is concerned: its
capacity and its current buffer.  (Unbuffered channels have `cap = 0`.) -/
structure Chan where
  cap : Nat
  buf : List Item

/-- A channel send completes without blocking exactly when the buffer has
room (we only model sends with no concurrently waiting receiver): the result
is `some` of the updated channel, or `none` when the sender blocks. -/
def Chan.send (c : Chan) (x : Item) : Option Chan :=
  if c.buf.length < c.cap then some ⟨c.cap, c.buf ++ [x]⟩ else none

/-- Identities of the channels `Sequential.Execute` allocates: the entry
channel (`make` at stats.go line 359) and the per-stage output channels
(`make` at line 365, stored in `procOutChans`). -/
inductive SeqChanId where
  | entry : SeqChanId
  | procOut : Nat → SeqChanId
deriving DecidableEq, Repr

/-- The channel stage `i` reads from (stats.go lines 358-363): the entry
channel for stage 0, and `procOutChans[i-1]` otherwise. -/
def seqProcInputChan (i : Nat) : SeqChanId :=
  if i = 0 then SeqChanId.entry else SeqChanId.procOut (i - 1)

/-- The channel stage `i` writes to (stats.go line 367): `procOutChans[i]`. -/
def seqProcOutputChan (i : Nat) : SeqChanId :=
  SeqChanId.procOut i

/-!
## Declarative construction (context.go)
-/

/-- `SerializedPipeline` (context.go lines 23-30): the nested descriptor.
The opaque `Config` map is modelled as an association list of strings; the
engine never interprets it, only hands it to the factory. -/
inductive SerializedPipeline where
  | mk (type_ : String) (name : String) (config : List (String × String))
       (processors : List SerializedPipeline)

/-- The processor tree `Pipeline()` builds.  Composite nodes carry their
chain name and children; note that the `Parallel` literal at context.go
line 57 leaves `procChans` nil, recorded here as `[]`. -/
inductive ProcTree where
  | fanout (chainName : String) (children : List ProcTree)
  | sequential (chainName : String) (children : List ProcTree)
  | parallel (chainName : String) (procChans : List Unit) (children : List ProcTree)
  | leaf (name : String)

/-- The error values `Pipeline()` can return: the sentinel
`ErrInvalidType = fmt.Errorf("invalid pipeline type")` (context.go line 34),
or the fresh error `fmt.Errorf("%s: %v", sp.Name, ErrInvalidType)` built in
the `"processor"` branch (line 95). -/
inductive PErr where
  | invalidType : PErr
  | named : String → PErr
deriving DecidableEq, Repr

/-- The `Error()` message of each error value. -/
def PErr.message : PErr → String
  | PErr.invalidType => "invalid pipeline type"
  | PErr.named n => n ++ ": invalid pipeline type"

/-- `ProcessorFactory` (context.go line 32): builds a leaf from a name and a
config, or fails.  The Go factory's error value is discarded by `Pipeline()`
(only its non-nilness matters), so it is modelled as `Option ProcTree`
with `none` for failure. -/
def ProcessorFactory : Type := String → List (String × String) → Option ProcTree

mutual

/-- `SerializedPipeline.Pipeline` (context.go lines 36-103): switch on the
descriptor's type.  The three composite branches build all children in
order, aborting on the first error; the `"processor"` branch calls the
factory and maps its failure to the name-prefixed invalid-type error; every
other type string returns the bare `ErrInvalidType` sentinel. -/
def buildPipeline (factory : ProcessorFactory) :
    SerializedPipeline → Except PErr ProcTree
  | SerializedPipeline.mk t n cfg procs =>
      if t = "fanout" then
        match buildChildren factory procs with
        | Except.error e => Except.error e
        | Except.ok cs => Except.ok (ProcTree.fanout n cs)
      else if t = "parallel" then
        match buildChildren factory procs with
        | Except.error e => Except.error e
        | Except.ok cs => Except.ok (ProcTree.parallel n [] cs)
      else if t = "sequential" then
        match buildChildren factory procs with
        | Except.error e => Except.error e
        | Except.ok cs => Except.ok (ProcTree.sequential n cs)
      else if t = "processor" then
        match factory n cfg with
        | none => Except.error (PErr.named n)
        | some p => Except.ok p
      else
        Except.error PErr.invalidType

/-- The child-building loop shared by the three composite branches
(context.go lines 43-52, 61-70, 79-88): `proc.Pipeline()` per child in
order; the first error is returned immediately, abandoning the remaining
children. -/
def buildChildren (factory : ProcessorFactory) :
    List SerializedPipeline → Except PErr (List ProcTree)
  | [] => Except.ok []
  | p :: rest =>
      match buildPipeline factory p with
      | Except.error e => Except.error e
      | Except.ok bp =>
          match buildChildren factory rest with
          | Except.error e => Except.error e
          | Except.ok bps => Except.ok (bp :: bps)

end

/-!
## Theorems
-/

/-- An exhausted source can be prepended to a merge. -/
theorem Merge.cons_nil {chans : List (List Item)} {out : List Item}
    (h : Merge chans out) : Merge ([] :: chans) out := by
  induction h with
  | nil hn =>
      refine Merge.nil ?_
      intro l hl
      rcases List.mem_cons.mp hl with h1 | h2
      · exact h1
      · exact hn l h2
  | cons hget hm ih =>
      rename_i chans' i x rest out'
      exact @Merge.cons _ (i + 1) _ _ _ hget ih

/-- Draining one source completely before the others is one possible merge
schedule. -/
theorem Merge.append_left (l : List Item) {chans : List (List Item)}
    {out : List Item} (h : Merge chans out) : Merge (l :: chans) (l ++ out) := by
  induction l with
  | nil => simpa using h.cons_nil
  | cons x xs ih => exact @Merge.cons _ 0 _ _ _ rfl ih

/-- The merge of no sources is empty. -/
theorem Merge.of_nil : Merge [] [] := Merge.nil (by simp)

/-- A single source merges to itself. -/
theorem Merge.singleton (l : List Item) : Merge [l] l := by
  simpa using Merge.append_left l Merge.of_nil

/-- A merge of a single source can only be that source: the collector /
output forwarding preserves one child's emission order exactly. -/
theorem Merge.singleton_inv {chans : List (List Item)} {out : List Item}
    (h : Merge chans out) : ∀ l, chans = [l] → out = l := by
  induction h with
  | nil hn =>
      intro l hl
      subst hl
      have := hn l (by simp)
      simp [this]
  | cons hget hm ih =>
      rename_i chans' i x rest out'
      intro l hl
      subst hl
      cases i with
      | zero =>
          simp at hget
          subst hget
          simpa using (ih rest (by simp)).symm ▸ rfl
      | succ j => simp at hget

/-- Replacing a source of length `k + 1` by its tail drops the summed
length by one. -/
theorem sum_map_length_set {chans : List (List Item)} {i : Nat} {x : Item}
    {rest : List Item} (h : chans.get? i = some (x :: rest)) :
    (chans.map List.length).sum = ((chans.set i rest).map List.length).sum + 1 := by
  induction chans generalizing i with
  | nil => simp at h
  | cons c cs ih =>
      cases i with
      | zero =>
          simp at h
          subst h
          simp [List.set]
          omega
      | succ j =>
          rw [List.get?_cons_succ] at h
          simp only [List.set, List.map_cons, List.sum_cons, ih h]
          omega

/-- A merge forwards every item of every source exactly once: the output
length is the summed source length. -/
theorem Merge.length_eq {chans : List (List Item)} {out : List Item}
    (h : Merge chans out) : out.length = (chans.map List.length).sum := by
  induction h with
  | nil hn =>
      symm
      simp only [List.length_nil]
      rw [List.sum_eq_zero]
      intro x hx
      rcases List.mem_map.mp hx with ⟨l, hl, hlen⟩
      rw [hn l hl] at hlen
      simpa using hlen.symm
  | cons hget hm ih =>
      rename_i chans' i x rest out'
      rw [sum_map_length_set hget]
      simp [ih]

/-- Filtering `range n` for one index `i < n` leaves exactly `[i]`. -/
theorem range_filter_eq_single {n i : Nat} (h : i < n) :
    (List.range n).filter (fun j => j = i) = [i] := by
  induction n with
  | zero => omega
  | succ k ih =>
      rw [List.range_succ, List.filter_append]
      by_cases hik : i = k
      · subst hik
        have hinner : (List.range i).filter (fun j => j = i) = [] := by
          rw [List.filter_eq_nil_iff]
          intro j hj
          have := List.mem_range.mp hj
          simp
          omega
        simp [hinner]
      · have hk : i < k := by omega
        have hne : ¬(decide (k = i) = true) := by simp; omega
        simp [ih hk, hne]

/-- Each child `i < n` receives, on its own input channel, exactly the full
input sequence in its original order. -/
theorem fanoutDeliveredTo_eq {n : Nat} (input : List Item) {i : Nat}
    (h : i < n) : fanoutDeliveredTo n input i = input := by
  induction input with
  | nil => simp [fanoutDeliveredTo, fanoutDispatch]
  | cons m rest ih =>
      have hstep : fanoutDeliveredTo n (m :: rest) i =
          ((((List.range n).map (fun j => (j, m))).filter
              (fun e => e.1 = i)).map (fun e => e.2)) ++
            fanoutDeliveredTo n rest i := by
        simp [fanoutDeliveredTo, fanoutDispatch, List.filter_append]
      have hfil : ((List.range n).map (fun j => (j, m))).filter
          (fun e => e.1 = i) = [(i, m)] := by
        rw [List.filter_map]
        have : ((fun e : Nat × Item => decide (e.1 = i)) ∘ fun j => (j, m)) =
            fun j => decide (j = i) := by
          funext j
          rfl
        rw [this, range_filter_eq_single h]
        rfl
      rw [hstep, hfil, ih]
      rfl

/-- A `Fanout` with no children can only short-circuit. -/
theorem Fanout.run_empty_children {f : Fanout} (hf : f.Processors = [])
    {input : List Item} {info : ExecInfo} (h : Fanout.Run f input info) :
    info = ⟨some [], 0, 0⟩ := by
  cases h with
  | empty _ => rfl
  | run hne _ => exact absurd hf hne

/-- A `Sequential` with no children can only short-circuit. -/
theorem Sequential.run_empty_stages {s : Sequential} (hs : s.Processors = [])
    {input : List Item} {info : ExecInfo} (h : Sequential.Run s input info) :
    info = ⟨some [], 0, 0⟩ := by
  cases h with
  | empty _ => rfl
  | run hne => exact absurd hs hne

/-- A `Parallel` with no children can only short-circuit. -/
theorem Parallel.run_empty_procs {p : Parallel} (hp : p.Processors = [])
    {input : List Item} {info : ExecInfo} (h : Parallel.Run p input info) :
    info = ⟨some [], 0, 0⟩ := by
  cases h with
  | empty _ => rfl
  | panicked hne _ => exact absurd hp hne
  | run hne _ _ _ _ => exact absurd hp hne

/-- A `Parallel` with children and the `nil` `procChans` slice every
constructor in the package produces can only panic: the output is never
closed, no input item is consumed, no goroutine is spawned. -/
theorem Parallel.run_panics {p : Parallel} (hne : p.Processors ≠ [])
    (hchan : p.procChans = []) {input : List Item} {info : ExecInfo}
    (h : Parallel.Run p input info) : info = ⟨none, 0, 0⟩ := by
  cases h with
  | empty he => exact absurd he hne
  | panicked _ _ => rfl
  | run _ hle _ _ _ =>
      exfalso
      rw [hchan] at hle
      simp at hle
      exact hne hle

/-- Looking up the key just stored finds the stored value. -/
theorem StatDB.find_store (db : StatDB) (p : String) (s : Stats) :
    StatDB.find (db.store p s) p = some s := by
  induction db with
  | nil => simp [StatDB.store, StatDB.find]
  | cons kv rest ih =>
      obtain ⟨k, v⟩ := kv
      by_cases h : k = p
      · simp [StatDB.store, StatDB.find, h]
      · simp [StatDB.store, StatDB.find, h, ih]

/-- A non-empty `Sequential` deterministically emits the in-order
composition of its stages over the input: a single lane, so end-to-end
order is exactly whatever the chained stages produce. -/
theorem Sequential.run_output {s : Sequential} (hne : s.Processors ≠ [])
    {input : List Item} {info : ExecInfo} (h : Sequential.Run s input info) :
    info.output = some (seqChain s.Processors input) := by
  cases h with
  | empty he => exact absurd he hne
  | run _ => rfl

/-- C6: a composite whose child list is empty closes its output immediately
(forwarding nothing) and returns, without receiving any item from its input
channel and without spawning any goroutine — for Fanout, Sequential and
Parallel alike, and this is the only possible behaviour. -/
theorem zero_children_short_circuit :
    (∀ name input info,
        Fanout.Run ⟨name, []⟩ input info → info = ⟨some [], 0, 0⟩) ∧
    (∀ name input, Fanout.Run ⟨name, []⟩ input ⟨some [], 0, 0⟩) ∧
    (∀ name input info,
        Sequential.Run ⟨name, []⟩ input info → info = ⟨some [], 0, 0⟩) ∧
    (∀ name input, Sequential.Run ⟨name, []⟩ input ⟨some [], 0, 0⟩) ∧
    (∀ name pc input info,
        Parallel.Run ⟨name, [], pc⟩ input info → info = ⟨some [], 0, 0⟩) ∧
    (∀ name pc input, Parallel.Run ⟨name, [], pc⟩ input ⟨some [], 0, 0⟩) := by
  refine ⟨?_, ?_, ?_, ?_, ?_, ?_⟩
  · intro name input info h
    exact Fanout.run_empty_children rfl h
  · intro name input
    exact Fanout.Run.empty rfl
  · intro name input info h
    exact Sequential.run_empty_stages rfl h
  · intro name input
    exact Sequential.Run.empty rfl
  · intro name pc input info h
    exact Parallel.run_empty_procs rfl h
  · intro name pc input
    exact Parallel.Run.empty rfl

/-- Witness for `zero_children_short_circuit`: with one item pending on the
input, an empty Fanout still terminates with no item read, no task spawned,
and an immediately closed empty output. -/
theorem zero_children_short_circuit_witness :
    (⟨some [], 0, 0⟩ : ExecInfo) = ⟨some [], 0, 0⟩ ∧
    Fanout.Run ⟨"z", []⟩ [⟨1, []⟩] ⟨some [], 0, 0⟩ ∧
    Sequential.Run ⟨"z", []⟩ [⟨1, []⟩] ⟨some [], 0, 0⟩ ∧
    Parallel.Run ⟨"z", [], []⟩ [⟨1, []⟩] ⟨some [], 0, 0⟩ := by
  refine ⟨?_, ?_, ?_, ?_⟩
  · exact zero_children_short_circuit.1 "z" [⟨1, []⟩] ⟨some [], 0, 0⟩
      (zero_children_short_circuit.2.1 "z" [⟨1, []⟩])
  · exact zero_children_short_circuit.2.1 "z" [⟨1, []⟩]
  · exact zero_children_short_circuit.2.2.2.1 "z" [⟨1, []⟩]
  · exact zero_children_short_circuit.2.2.2.2.2 "z" [] [⟨1, []⟩]

/-- C5: stage `i`'s output channel is stage `i+1`'s input channel
(`procInput = chain.procOutChans[procIndex-1]`), the pipeline output is
deterministically the in-order composition of the stages (full end-to-end
order preservation along the single lane), and two add-one stages on
`[1,2,3]` yield exactly `[3,4,5]`, in that order. -/
theorem sequential_wiring_and_order :
    (∀ i, seqProcInputChan (i + 1) = seqProcOutputChan i) ∧
    (∀ s input info, s.Processors ≠ [] → Sequential.Run s input info →
        info.output = some (seqChain s.Processors input)) ∧
    (∀ name info,
        Sequential.Run ⟨name, [addOne, addOne]⟩
          [⟨1, []⟩, ⟨2, []⟩, ⟨3, []⟩] info →
        info.output = some [⟨3, []⟩, ⟨4, []⟩, ⟨5, []⟩]) ∧
    (∀ name, Sequential.Run ⟨name, [addOne, addOne]⟩
        [⟨1, []⟩, ⟨2, []⟩, ⟨3, []⟩]
        ⟨some [⟨3, []⟩, ⟨4, []⟩, ⟨5, []⟩], 3, 4⟩) := by
  have hchain : seqChain [addOne, addOne] [⟨1, []⟩, ⟨2, []⟩, ⟨3, []⟩] =
      [⟨3, []⟩, ⟨4, []⟩, ⟨5, []⟩] := by decide
  refine ⟨?_, ?_, ?_, ?_⟩
  · intro i
    simp [seqProcInputChan, seqProcOutputChan]
  · intro s input info hne h
    exact Sequential.run_output hne h
  · intro name info h
    rw [Sequential.run_output (by simp) h]
    rw [hchain]
  · intro name
    have := @Sequential.Run.run ⟨name, [addOne, addOne]⟩
      [⟨1, []⟩, ⟨2, []⟩, ⟨3, []⟩] (by simp)
    simpa [hchain] using this

/-- Witness for `sequential_wiring_and_order` at concrete inputs. -/
theorem sequential_wiring_and_order_witness :
    seqProcInputChan 1 = seqProcOutputChan 0 ∧
    (⟨some [⟨3, []⟩, ⟨4, []⟩, ⟨5, []⟩], 3, 4⟩ : ExecInfo).output =
        some [⟨3, []⟩, ⟨4, []⟩, ⟨5, []⟩] := by
  refine ⟨sequential_wiring_and_order.1 0, ?_⟩
  exact sequential_wiring_and_order.2.2.1 "c" _
    (sequential_wiring_and_order.2.2.2 "c")

/-- C4: every child `i < n` of a fanout receives the full input sequence in
its original order (the dispatcher sends each item to every child in
child-index order); with `n` pass-through children every completed run
forwards exactly `n × |input|` items to the pipeline output; and both
per-child channels are created with capacity 200, so a send on such a
channel proceeds without blocking exactly while fewer than 200 items are
buffered — a child may lag the dispatcher by up to 200 items. -/
theorem fanout_duplication_and_capacity :
    (∀ (n : Nat) (input : List Item) (i : Nat), i < n →
        fanoutDeliveredTo n input i = input) ∧
    (∀ (n : Nat) (name : String) (input : List Item) (info : ExecInfo)
        (out : List Item),
        Fanout.Run ⟨name, List.replicate n passThrough⟩ input info →
        info.output = some out → out.length = n * input.length) ∧
    fanoutChildInputCap = 200 ∧
    fanoutChildOutputCap = 200 ∧
    (∀ (buf : List Item) (x : Item),
        ((Chan.mk fanoutChildInputCap buf).send x).isSome = true ↔
          buf.length < 200) := by
  refine ⟨?_, ?_, rfl, rfl, ?_⟩
  · intro n input i h
    exact fanoutDeliveredTo_eq input h
  · intro n name input info out hrun hout
    cases hrun with
    | empty he =>
        have hn : n = 0 := by
          simpa using congrArg List.length he
        injection hout with hout'
        subst hn
        simp [← hout']
    | run hne hm =>
        injection hout with hout'
        subst hout'
        have hmap : (List.replicate n passThrough).map (fun c => c input) =
            List.replicate n input := by
          simp [List.map_replicate, passThrough]
        rw [hmap] at hm
        have := hm.length_eq
        simpa [List.map_replicate, List.sum_replicate, smul_eq_mul] using this
  · intro buf x
    by_cases h : buf.length < 200 <;>
      simp [Chan.send, fanoutChildInputCap, h]

/-- Witness for `fanout_duplication_and_capacity` at concrete inputs: two
pass-through children, one item. -/
theorem fanout_duplication_and_capacity_witness :
    fanoutDeliveredTo 2 [⟨1, []⟩, ⟨2, []⟩, ⟨3, []⟩] 1 =
        [⟨1, []⟩, ⟨2, []⟩, ⟨3, []⟩] ∧
    ([⟨1, []⟩, ⟨1, []⟩] : List Item).length =
        2 * ([⟨1, []⟩] : List Item).length ∧
    ((Chan.mk fanoutChildInputCap []).send ⟨1, []⟩).isSome = true := by
  refine ⟨?_, ?_, ?_⟩
  · exact fanout_duplication_and_capacity.1 2 [⟨1, []⟩, ⟨2, []⟩, ⟨3, []⟩] 1
      (by decide)
  · refine fanout_duplication_and_capacity.2.1 2 "w" [⟨1, []⟩]
      ⟨some [⟨1, []⟩, ⟨1, []⟩], 1, 6⟩ [⟨1, []⟩, ⟨1, []⟩] ?_ rfl
    exact Fanout.Run.run (by simp)
      (Merge.append_left [⟨1, []⟩] (Merge.append_left [⟨1, []⟩] Merge.of_nil))
  · exact (fanout_duplication_and_capacity.2.2.2.2 [] ⟨1, []⟩).mpr (by decide)

/-- C1: a `Parallel` with two pass-through children and input `[1,2,3,4]`
never delivers anything.  `Execute` indexes the never-allocated `procChans`
slice (stats.go line 420) and panics on the very first loop iteration: the
only possible outcome is `⟨none, 0, 0⟩` — no input item is consumed (so no
item is delivered to any child), nothing reaches the pipeline output, and
the output channel is never closed.  The claimed exclusive delivery and
multiset union `{1,2,3,4}` therefore never happen. -/
theorem parallel_two_children_panics :
    (∀ info, Parallel.Run ⟨"p", [passThrough, passThrough], []⟩
        [⟨1, []⟩, ⟨2, []⟩, ⟨3, []⟩, ⟨4, []⟩] info → info = ⟨none, 0, 0⟩) ∧
    Parallel.Run ⟨"p", [passThrough, passThrough], []⟩
        [⟨1, []⟩, ⟨2, []⟩, ⟨3, []⟩, ⟨4, []⟩] ⟨none, 0, 0⟩ := by
  constructor
  · intro info h
    exact Parallel.run_panics (by simp) rfl h
  · exact Parallel.Run.panicked (by simp) rfl

/-- Witness for `parallel_two_children_panics`: the panic outcome is
admissible and forced. -/
theorem parallel_two_children_panics_witness :
    (⟨none, 0, 0⟩ : ExecInfo) = ⟨none, 0, 0⟩ :=
  parallel_two_children_panics.1 ⟨none, 0, 0⟩ parallel_two_children_panics.2

/-- C2: closure liveness fails on any topology containing a non-empty
`Parallel`.  For the root composite `Parallel` with a single pass-through
child (a child that satisfies the Processor contract) and the input channel
closed after zero sends, every possible execution panics: `Execute` never
returns normally and the pipeline output channel is never closed
(`output = none`), contradicting the claimed eventual closure for nested
combinations of all three composites. -/
theorem parallel_never_closes_output :
    (∀ info, Parallel.Run ⟨"q", [passThrough], []⟩ [] info →
        info.output = none) ∧
    Parallel.Run ⟨"q", [passThrough], []⟩ [] ⟨none, 0, 0⟩ := by
  constructor
  · intro info h
    rw [Parallel.run_panics (by simp) rfl h]
  · exact Parallel.Run.panicked (by simp) rfl

/-- Witness for `parallel_never_closes_output`. -/
theorem parallel_never_closes_output_witness :
    (⟨none, 0, 0⟩ : ExecInfo).output = none :=
  parallel_never_closes_output.1 ⟨none, 0, 0⟩ parallel_never_closes_output.2

/-- C3: single-child equivalence holds for `Sequential` (same output, same
order) and for `Fanout` (a single-source merge is forced to be that source,
so even the order matches), but fails for `Parallel`: invoking the child
directly on `[5]` yields `[5]`, while the `Parallel` wrapper panics on its
nil `procChans` slice and emits nothing — its output channel is never
closed. -/
theorem single_child_equivalence_parallel_fails :
    (∀ (c : ChildFn) (name : String) (input : List Item) (info : ExecInfo),
        Sequential.Run ⟨name, [c]⟩ input info → info.output = some (c input)) ∧
    (∀ (c : ChildFn) (name : String) (input : List Item) (info : ExecInfo)
        (out : List Item),
        Fanout.Run ⟨name, [c]⟩ input info → info.output = some out →
        out = c input) ∧
    passThrough [⟨5, []⟩] = [⟨5, []⟩] ∧
    (∀ info, Parallel.Run ⟨"r", [passThrough], []⟩ [⟨5, []⟩] info →
        info.output = none) ∧
    Parallel.Run ⟨"r", [passThrough], []⟩ [⟨5, []⟩] ⟨none, 0, 0⟩ := by
  refine ⟨?_, ?_, rfl, ?_, ?_⟩
  · intro c name input info h
    rw [Sequential.run_output (by simp) h]
    rfl
  · intro c name input info out h hout
    cases h with
    | empty he => exact absurd he (by simp)
    | run hne hm =>
        injection hout with hout'
        subst hout'
        exact hm.singleton_inv (c input) rfl
  · intro info h
    rw [Parallel.run_panics (by simp) rfl h]
  · exact Parallel.Run.panicked (by simp) rfl

/-- Witness for `single_child_equivalence_parallel_fails` at concrete
inputs: an add-one child behind Sequential and behind Fanout, and the
panicking Parallel wrapper. -/
theorem single_child_equivalence_parallel_fails_witness :
    (⟨some [⟨8, []⟩], 1, 3⟩ : ExecInfo).output = some (addOne [⟨7, []⟩]) ∧
    ([⟨8, []⟩] : List Item) = addOne [⟨7, []⟩] ∧
    (⟨none, 0, 0⟩ : ExecInfo).output = none := by
  refine ⟨?_, ?_, ?_⟩
  · refine single_child_equivalence_parallel_fails.1 addOne "s" [⟨7, []⟩]
      ⟨some [⟨8, []⟩], 1, 3⟩ ?_
    have := @Sequential.Run.run ⟨"s", [addOne]⟩ [⟨7, []⟩] (by simp)
    simpa [seqChain, addOne] using this
  · refine single_child_equivalence_parallel_fails.2.1 addOne "f" [⟨7, []⟩]
      ⟨some [⟨8, []⟩], 1, 4⟩ [⟨8, []⟩] ?_ rfl
    refine Fanout.Run.run (by simp) ?_
    simpa [addOne] using Merge.singleton ([⟨8, []⟩] : List Item)
  · exact single_child_equivalence_parallel_fails.2.2.2.1 ⟨none, 0, 0⟩
      single_child_equivalence_parallel_fails.2.2.2.2

/-- C7 counterexample: for a descriptor whose kind string is unknown
(`"bogus"`, node name `"mynode"`), `Pipeline()` falls into the `default`
branch (context.go line 101) and returns the *bare* `ErrInvalidType`
sentinel: its message is `"invalid pipeline type"` and does not contain the
offending node's name, contradicting the claim that the error identifies
the offending node. -/
theorem pipeline_unknown_kind_error_lacks_name :
    buildPipeline (fun _ _ => none)
        (SerializedPipeline.mk "bogus" "mynode" [] []) =
      Except.error PErr.invalidType ∧
    PErr.message PErr.invalidType = "invalid pipeline type" ∧
    ¬ List.IsInfix "mynode".data (PErr.message PErr.invalidType).data := by
  refine ⟨rfl, rfl, ?_⟩
  decide

/-- C7 (amended): construction is synchronous and fails fast.  A kind
string outside {fanout, sequential, parallel, processor} yields the bare
`ErrInvalidType` sentinel (message `"invalid pipeline type"`, no node
name); a failing leaf factory yields an error whose message prefixes the
offending node's name to `"invalid pipeline type"`; and the first failing
child aborts assembly of the enclosing composite (and hence of the whole
tree), its error being returned unchanged. -/
theorem pipeline_fails_fast :
    (∀ (factory : ProcessorFactory) (t n : String)
        (cfg : List (String × String)) (procs : List SerializedPipeline),
        t ≠ "fanout" → t ≠ "parallel" → t ≠ "sequential" → t ≠ "processor" →
        buildPipeline factory (SerializedPipeline.mk t n cfg procs) =
          Except.error PErr.invalidType) ∧
    (∀ (factory : ProcessorFactory) (n : String)
        (cfg : List (String × String)) (procs : List SerializedPipeline),
        factory n cfg = none →
        buildPipeline factory (SerializedPipeline.mk "processor" n cfg procs) =
          Except.error (PErr.named n)) ∧
    (∀ n, PErr.message (PErr.named n) = n ++ ": invalid pipeline type") ∧
    (∀ (factory : ProcessorFactory) (p : SerializedPipeline)
        (rest : List SerializedPipeline) (e : PErr),
        buildPipeline factory p = Except.error e →
        buildChildren factory (p :: rest) = Except.error e) ∧
    (∀ (factory : ProcessorFactory) (n : String)
        (cfg : List (String × String)) (procs : List SerializedPipeline)
        (e : PErr),
        buildChildren factory procs = Except.error e →
        buildPipeline factory (SerializedPipeline.mk "fanout" n cfg procs) =
            Except.error e ∧
        buildPipeline factory (SerializedPipeline.mk "parallel" n cfg procs) =
            Except.error e ∧
        buildPipeline factory (SerializedPipeline.mk "sequential" n cfg procs) =
            Except.error e) := by
  refine ⟨?_, ?_, ?_, ?_, ?_⟩
  · intro factory t n cfg procs h1 h2 h3 h4
    simp [buildPipeline, h1, h2, h3, h4]
  · intro factory n cfg procs h
    simp [buildPipeline, h]
  · intro n
    rfl
  · intro factory p rest e h
    simp [buildChildren, h]
  · intro factory n cfg procs e h
    refine ⟨?_, ?_, ?_⟩ <;> simp [buildPipeline, h]

/-- Witness for `pipeline_fails_fast` at concrete inputs: a factory that
rejects the name `"bad"`, a processor leaf named `"bad"`, and a fanout
whose first child is that leaf. -/
theorem pipeline_fails_fast_witness :
    buildPipeline (fun n _ => if n = "bad" then none else some (ProcTree.leaf n))
        (SerializedPipeline.mk "weird" "root" [] []) =
      Except.error PErr.invalidType ∧
    buildPipeline (fun n _ => if n = "bad" then none else some (ProcTree.leaf n))
        (SerializedPipeline.mk "processor" "bad" [] []) =
      Except.error (PErr.named "bad") ∧
    PErr.message (PErr.named "bad") = "bad" ++ ": invalid pipeline type" ∧
    buildChildren (fun n _ => if n = "bad" then none else some (ProcTree.leaf n))
        [SerializedPipeline.mk "processor" "bad" [] [],
         SerializedPipeline.mk "processor" "good" [] []] =
      Except.error (PErr.named "bad") ∧
    buildPipeline (fun n _ => if n = "bad" then none else some (ProcTree.leaf n))
        (SerializedPipeline.mk "fanout" "root" []
          [SerializedPipeline.mk "processor" "bad" [] [],
           SerializedPipeline.mk "processor" "good" [] []]) =
      Except.error (PErr.named "bad") := by
  have hfac : (fun n _ => if n = "bad" then none
      else some (ProcTree.leaf n) : ProcessorFactory) "bad" [] = none := by
    simp
  have h1 := pipeline_fails_fast.1
    (fun n _ => if n = "bad" then none else some (ProcTree.leaf n))
    "weird" "root" [] [] (by decide) (by decide) (by decide) (by decide)
  have h2 := pipeline_fails_fast.2.1
    (fun n _ => if n = "bad" then none else some (ProcTree.leaf n))
    "bad" [] [] hfac
  have h3 := pipeline_fails_fast.2.2.1 "bad"
  have h4 := pipeline_fails_fast.2.2.2.1
    (fun n _ => if n = "bad" then none else some (ProcTree.leaf n))
    (SerializedPipeline.mk "processor" "bad" [] [])
    [SerializedPipeline.mk "processor" "good" [] []]
    (PErr.named "bad") h2
  have h5 := (pipeline_fails_fast.2.2.2.2
    (fun n _ => if n = "bad" then none else some (ProcTree.leaf n))
    "root" []
    [SerializedPipeline.mk "processor" "bad" [] [],
     SerializedPipeline.mk "processor" "good" [] []]
    (PErr.named "bad") h4).1
  exact ⟨h1, h2, h3, h4, h5⟩

/-- C10: `PipelineLogLevelDisabled` and `PipelineLogLevelDebug` are both 0
(the latter is `= iota` in its own one-line `const` declaration, and `iota`
restarts at 0 there), so `Log` emits exactly when the context's log-level
value is 0; a context configured with
`WithLogLevel(ctx, PipelineLogLevelDisabled)` passes the debug check and
logs, while a context with no log-level value never logs. -/
theorem log_level_disabled_equals_debug :
    PipelineLogLevelDisabled = 0 ∧ PipelineLogLevelDebug = 0 ∧
    (∀ ctx p m, (Log ctx p m).isSome = true ↔ ctx.logLevel = some 0) ∧
    (∀ ctx p m, (Log (WithLogLevel ctx PipelineLogLevelDisabled) p m).isSome = true) ∧
    (∀ ctx p m, ctx.logLevel = none → Log ctx p m = none) := by
  refine ⟨rfl, rfl, ?_, ?_, ?_⟩
  · intro ctx p m
    by_cases h : ctx.logLevel = some PipelineLogLevelDebug <;>
      simp [Log, h, PipelineLogLevelDebug]
  · intro ctx p m
    simp [Log, WithLogLevel, PipelineLogLevelDisabled, PipelineLogLevelDebug]
  · intro ctx p m h
    simp [Log, h]

/-- Witness for `log_level_disabled_equals_debug` at concrete inputs: the
background context never logs, and disabling the log level via
`WithLogLevel` makes `Log` emit. -/
theorem log_level_disabled_equals_debug_witness :
    Log Ctx.background "Fanout/x" "starting" = none ∧
    (Log (WithLogLevel Ctx.background PipelineLogLevelDisabled) "Fanout/x"
        "starting").isSome = true := by
  refine ⟨?_, ?_⟩
  · exact log_level_disabled_equals_debug.2.2.2.2 Ctx.background "Fanout/x" "starting" rfl
  · exact log_level_disabled_equals_debug.2.2.2.1 Ctx.background "Fanout/x" "starting"

/-- C8: `TrackOutput` appends the processor's name to the item's trace
exactly when the context carries the traces flag set by `WithTraces`; and
with no statistics store registered, `TrackOutput` and the other `Track*`
hooks leave the context untouched (no counter update, no error). -/
theorem trackOutput_trace_and_silent_noop :
    (∀ ctx now p obj, (TrackOutput ctx now p obj).2 =
        if HasTracesEnabled ctx then obj.AddTrace p else obj) ∧
    (∀ ctx now p obj, HasTracesEnabled ctx = true →
        (TrackOutput ctx now p obj).2.trace = obj.trace ++ [p]) ∧
    (∀ ctx, HasTracesEnabled (WithTraces ctx) = true) ∧
    (∀ ctx, ctx.tracesFlag = none → HasTracesEnabled ctx = false) ∧
    (∀ ctx now p obj, ctx.statDB = none →
        (TrackOutput ctx now p obj).1 = ctx ∧
        TrackInput ctx now p = ctx ∧
        TrackStarted ctx now p = ctx ∧
        TrackFinished ctx now p = ctx ∧
        TrackPassthrough ctx now p obj = (ctx, obj)) := by
  refine ⟨?_, ?_, ?_, ?_, ?_⟩
  · intro ctx now p obj
    cases h : ctx.statDB <;> simp [TrackOutput, h]
  · intro ctx now p obj htr
    cases h : ctx.statDB <;> simp [TrackOutput, h, htr, Item.AddTrace]
  · intro ctx
    simp [HasTracesEnabled, WithTraces]
  · intro ctx h
    simp [HasTracesEnabled, h]
  · intro ctx now p obj h
    refine ⟨?_, ?_, ?_, ?_, ?_⟩ <;>
      simp [TrackOutput, TrackInput, TrackStarted, TrackFinished,
        TrackPassthrough, h]

/-- Witness for `trackOutput_trace_and_silent_noop` at concrete inputs:
with tracing enabled the name is appended, and on the bare background
context every hook is a no-op. -/
theorem trackOutput_trace_and_silent_noop_witness :
    (TrackOutput (WithTraces Ctx.background) 3 "Seq/x" ⟨9, []⟩).2.trace =
        [] ++ ["Seq/x"] ∧
    (TrackOutput Ctx.background 3 "Seq/x" ⟨9, []⟩).1 = Ctx.background ∧
    TrackPassthrough Ctx.background 3 "Seq/x" ⟨9, []⟩ =
        (Ctx.background, ⟨9, []⟩) := by
  refine ⟨?_, ?_, ?_⟩
  · exact trackOutput_trace_and_silent_noop.2.1 (WithTraces Ctx.background) 3
      "Seq/x" ⟨9, []⟩ (trackOutput_trace_and_silent_noop.2.2.1 Ctx.background)
  · exact (trackOutput_trace_and_silent_noop.2.2.2.2 Ctx.background 3 "Seq/x"
      ⟨9, []⟩ rfl).1
  · exact (trackOutput_trace_and_silent_noop.2.2.2.2 Ctx.background 3 "Seq/x"
      ⟨9, []⟩ rfl).2.2.2.2

/-- C9: with a statistics store registered, `TrackPassthrough` increments
the processor's `Output` counter and stamps `LastOutput` (it calls the
store's `trackOutput`, not `trackPassthrough`), leaves `Passthrough` and
`LastPassthrough` untouched, and never annotates the item's trace — even
when tracing is enabled. -/
theorem trackPassthrough_increments_output (ctx : Ctx) (db : StatDB)
    (now : Nat) (p : String) (obj : Item) (h : ctx.statDB = some db) :
    (TrackPassthrough ctx now p obj).2 = obj ∧
    (TrackPassthrough ctx now p obj).1 =
        { ctx with statDB := some (db.trackOutput p now) } ∧
    StatDB.find (db.trackOutput p now) p =
        some ((db.getStats p).TrackOutput now) ∧
    ((db.getStats p).TrackOutput now).Output = (db.getStats p).Output + 1 ∧
    ((db.getStats p).TrackOutput now).LastOutput = some now ∧
    ((db.getStats p).TrackOutput now).Passthrough =
        (db.getStats p).Passthrough ∧
    ((db.getStats p).TrackOutput now).LastPassthrough =
        (db.getStats p).LastPassthrough := by
  refine ⟨?_, ?_, ?_, rfl, rfl, rfl, rfl⟩
  · simp [TrackPassthrough, h]
  · simp [TrackPassthrough, h]
  · exact StatDB.find_store db p ((db.getStats p).TrackOutput now)

/-- Witness for `trackPassthrough_increments_output`: tracing enabled, an
empty store registered; the item keeps an empty trace and the stored entry
for the processor has `Output = 1`, `LastOutput = 5`, `Passthrough = 0`,
`LastPassthrough = none`. -/
theorem trackPassthrough_increments_output_witness :
    (TrackPassthrough (WithStats (WithTraces Ctx.background) []) 5 "P" ⟨7, []⟩).2
        = ⟨7, []⟩ ∧
    StatDB.find (StatDB.trackOutput [] "P" 5) "P" =
        some ((StatDB.getStats [] "P").TrackOutput 5) ∧
    ((StatDB.getStats [] "P").TrackOutput 5).Output =
        (StatDB.getStats [] "P").Output + 1 ∧
    ((StatDB.getStats [] "P").TrackOutput 5).Passthrough =
        (StatDB.getStats [] "P").Passthrough := by
  have h := trackPassthrough_increments_output
    (WithStats (WithTraces Ctx.background) []) [] 5 "P" ⟨7, []⟩ rfl
  exact ⟨h.1, h.2.2.1, h.2.2.2.1, h.2.2.2.2.2.1⟩

end Pipeline
